import Mathlib

/-!
Verification of the terrakit multi-provider raster acquisition and
normalization layer.

This file gives a shallow embedding, in Lean 4, of the parts of the
terrakit source that the checked properties are about:

* the connector factory (`src/terrakit/terrakit.py`,
  `src/terrakit/validate/data_connector.py`),
* bounding-box validation (`src/terrakit/validate/helpers.py`),
* the Sentinel AWS connector discovery and download paths
  (`src/terrakit/download/data_connectors/sentinel_aws.py`),
* band checking (`src/terrakit/download/geodata_utils.py`),
* the temporal and coordinate utilities
  (`src/terrakit/general_utils/geospatial_util.py`).

Python conventions are modelled explicitly: floating point numbers are
represented by rationals, NaN pixels by `Option`, Python exceptions by an
`Except` error channel with one constructor per exception class that the
modelled code can raise, and network discovery results are parameters of
the embedded functions (the code under verification only post-processes
them).
-/

namespace Terrakit

/-- A single-quote character, used when reproducing Python error message
text that quotes the offending value. -/
def sq : String := String.singleton (Char.ofNat 39)

/-- `startsWithChars hay needle = true` iff `needle` is an initial segment
of `hay`. -/
def startsWithChars : List Char → List Char → Bool
  | _, [] => true
  | [], _ :: _ => false
  | h :: t, n :: ns => h == n && startsWithChars t ns

/-- `subOccurs needle hay = true` iff `needle` occurs contiguously in
`hay`. -/
def subOccurs (needle : List Char) : List Char → Bool
  | [] => startsWithChars [] needle
  | h :: t => startsWithChars (h :: t) needle || subOccurs needle t

/-- `containsSub hay needle = true` iff `needle` occurs as a substring of
`hay` (the Python `needle in hay` test used by the spec's scenarios). -/
def containsSub (hay needle : String) : Bool :=
  subOccurs needle.data hay.data

/-- The exception classes that the embedded code can raise.  `valueError`
models `TerrakitValueError`, `validationError` models
`TerrakitValidationError`; the remaining constructors model built-in
Python exceptions that escape the code unwrapped. -/
inductive PyErr where
  | valueError (msg : String)
  | validationError (msg : String)
  | typeError (msg : String)
  | attributeError
  | indexError
  | assertionError
deriving DecidableEq, Repr

/-! ## Connector factory

`src/terrakit/validate/data_connector.py` declares the closed enumeration
of connector names (`ConnectorType.connector_type`), and
`src/terrakit/terrakit.py` dispatches on it in
`DataConnectorFactory.get_connector`; `DataConnector.__init__` first
validates the name against the enumeration (pydantic) and re-raises a
`ValidationError` as `TerrakitValidationError` with the message
`Invalid connector type: '<name>'`. -/

/-- The `Literal[...]` values of `ConnectorType.connector_type`
(`src/terrakit/validate/data_connector.py`, lines 24-31). -/
def connectorTypeLiterals : List String :=
  ["nasa_earthdata", "sentinelhub", "sentinel_aws", "IBMResearchSTAC",
   "TheWeatherCompany", "climate_data_store"]

/-- The connector classes that `DataConnectorFactory.get_connector` can
construct (one constructor per `return` branch of the factory). -/
inductive ConnectorInstance where
  | sentinelHub
  | nasaEarthData
  | sentinelAWS
  | ibmResearchSTAC
  | theWeatherCompany
deriving DecidableEq, Repr

/-- The message of the `TerrakitValidationError` raised for a connector
name the factory (or the pydantic model) does not accept. -/
def invalidConnectorMsg (name : String) : String :=
  "Invalid connector type: " ++ sq ++ name ++ sq

/-- `DataConnectorFactory.get_connector` (`src/terrakit/terrakit.py`,
lines 31-63): a flat dispatch on the connector-type string, raising
`TerrakitValidationError` in the final `else` branch. -/
def getConnector (ct : String) : Except PyErr ConnectorInstance :=
  if ct = "sentinelhub" then .ok .sentinelHub
  else if ct = "nasa_earthdata" then .ok .nasaEarthData
  else if ct = "sentinel_aws" then .ok .sentinelAWS
  else if ct = "IBMResearchSTAC" then .ok .ibmResearchSTAC
  else if ct = "TheWeatherCompany" then .ok .theWeatherCompany
  else .error (.validationError (invalidConnectorMsg ct))

/-- `DataConnector.__init__` (`src/terrakit/terrakit.py`, lines 92-110):
pydantic validation of the name against `connectorTypeLiterals`, then the
factory dispatch; a pydantic `ValidationError` is re-raised as
`TerrakitValidationError` with the same `Invalid connector type` text. -/
def dataConnectorInit (ct : String) : Except PyErr ConnectorInstance :=
  if connectorTypeLiterals.contains ct then getConnector ct
  else .error (.validationError (invalidConnectorMsg ct))

/-! ## Sentinel AWS discovery

`find_sh_aws_stac_items` (`src/terrakit/download/data_connectors/
sentinel_aws.py`, lines 162-241) post-processes the items returned by the
STAC search: zero discovered items raise `TerrakitValueError`; a truthy
`maxcc` filters items by `eo:cloud_cover < maxcc` and raises
`TerrakitValueError` if the filter leaves nothing.  The STAC search itself
is a network call, so the discovered item list is a parameter here. -/

/-- A discovered STAC item: its id and its `eo:cloud_cover` property. -/
structure StacItem where
  id : String
  cloud_cover : ℚ
deriving DecidableEq, Repr

/-- Truthiness of the Python `maxcc` argument (`if maxcc:`): `None` and
`0` are falsy, every other number is truthy. -/
def maxccTruthy : Option ℚ → Bool
  | none => false
  | some q => decide (q ≠ 0)

/-- The cloud-cover filter of `find_sh_aws_stac_items`
(`src/terrakit/download/data_connectors/sentinel_aws.py`, lines 204-207):
when `maxcc` is truthy, keep the items with `eo:cloud_cover < maxcc`;
otherwise keep every item. -/
def filterByMaxcc (items : List StacItem) (maxcc : Option ℚ) : List StacItem :=
  if maxccTruthy maxcc then
    items.filter (fun it => decide (it.cloud_cover < maxcc.getD 0))
  else items

/-- Message of the `TerrakitValueError` raised when the STAC search found
no items (`sentinel_aws.py`, line 200, with the query parameters elided). -/
def noItemsMsg : String :=
  "No items found for query parameters."

/-- Message of the `TerrakitValueError` raised when the cloud-cover filter
removed every item (`sentinel_aws.py`, line 209). -/
def noItemsAfterCloudFilterMsg : String :=
  "After filtering for cloud cover, no items were found."

/-- `find_sh_aws_stac_items` (`sentinel_aws.py`, lines 162-241) with the
network search abstracted into the `discovered` parameter; the stacking of
the surviving items is elided, the function returns the surviving items. -/
def findShAwsStacItems (discovered : List StacItem) (maxcc : Option ℚ) :
    Except PyErr (List StacItem) :=
  if discovered.isEmpty then .error (.valueError noItemsMsg)
  else
    if maxccTruthy maxcc then
      let items := filterByMaxcc discovered maxcc
      if items.isEmpty then .error (.valueError noItemsAfterCloudFilterMsg)
      else .ok items
    else .ok discovered

/-! ## NASA Earthdata discovery

`NASA_EarthData.find_data` (`src/terrakit/download/data_connectors/
nasa_earthdata.py`, lines 242-312) post-processes the item list returned
by the provider: it applies the same truthy-`maxcc` cloud filter, projects
each item to (id, datetime, eo:cloud_cover) and de-duplicates the calendar
dates.  Zero discovered items flow through and produce `([], [])`. -/

/-- A discovered NASA Earthdata item (`id`, `properties.datetime`,
`properties.eo:cloud_cover`). -/
structure NasaItem where
  id : String
  datetime : String
  cloud_cover : ℚ
deriving DecidableEq, Repr

/-- Insert a string into a sorted list of strings (helper for the Python
`sorted`). -/
def insertSorted (x : String) : List String → List String
  | [] => [x]
  | y :: ys => if x ≤ y then x :: y :: ys else y :: insertSorted x ys

/-- `sorted(set(l))`: sort after removing duplicates. -/
def sortedDedup (l : List String) : List String :=
  (l.foldl (fun acc d => if acc.contains d then acc else acc ++ [d]) []).foldr
    insertSorted []

/-- The post-discovery part of `NASA_EarthData.find_data`
(`nasa_earthdata.py`, lines 290-312): cloud filter, projection, unique
sorted calendar dates.  Validation has already passed; the discovered item
list is the network result. -/
def nasaFindData (discovered : List NasaItem) (maxcc : Option ℚ) :
    List String × List NasaItem :=
  let items :=
    if maxccTruthy maxcc then
      discovered.filter (fun it => decide (it.cloud_cover < maxcc.getD 0))
    else discovered
  let uniqueDates := sortedDedup (items.map (fun it => (it.datetime.splitOn "T").headD ""))
  (uniqueDates, items)

/-! ## Bbox reprojection

`reproject_bbox` (`src/terrakit/general_utils/geospatial_util.py`, lines
568-604) and `_convert_to_360_degree_system` (lines 607-626).  The repo
always invokes the function with `src_crs = 4326`; the embedding is the
`src_crs = dst_crs = 4326` instance, for which the pyproj transformer is
the identity on coordinates. -/

/-- `_convert_to_360_degree_system` (`geospatial_util.py`, lines 607-626):
add 360 to every negative angle. -/
def convertTo360DegreeSystem (values : List ℚ) : List ℚ :=
  values.map (fun v => if v < 0 then v + 360 else v)

/-- A bounding box (minimum longitude, minimum latitude, maximum
longitude, maximum latitude). -/
structure Bbox4 where
  minx : ℚ
  miny : ℚ
  maxx : ℚ
  maxy : ℚ
deriving DecidableEq, Repr

/-- `reproject_bbox` (`geospatial_util.py`, lines 568-604) specialized to
`src_crs = dst_crs = 4326` (the identity transformer): the early return
when the CRSs agree and the system is not 0-360; otherwise the asserts on
the bbox ordering, the (identity) corner transformation, and — since
`dst_crs == 4326` and `is_360_degree_system` — the fold of the two
longitudes through `_convert_to_360_degree_system`. -/
def reprojectBbox4326 (b : Bbox4) (is360DegreeSystem : Bool) :
    Except PyErr Bbox4 :=
  if is360DegreeSystem = false then .ok b
  else
    if b.minx ≤ b.maxx then
      if b.miny ≤ b.maxy then
        match convertTo360DegreeSystem [b.minx, b.maxx] with
        | [minx2, maxx2] => .ok ⟨minx2, b.miny, maxx2, b.maxy⟩
        | _ => .error .assertionError
      else .error .assertionError
    else .error .assertionError

/-! ## Bbox validation

`check_bbox` (`src/terrakit/validate/helpers.py`, lines 109-147).  A bbox
arrives from the caller as `None`, a non-list value, or a Python list
whose entries are numbers or strings (a string either parses as a float
or does not); `float(entry)` raises `ValueError` for a non-parsing
string, Python `<`/`<=` between a string and a number raises `TypeError`,
and between two strings compares lexicographically. -/

/-- A Python value appearing as one entry of the bbox list. -/
inductive BboxEntry where
  | num (q : ℚ)
  | strOk (s : String) (q : ℚ)
  | strBad (s : String)
deriving DecidableEq, Repr

/-- Python `float(entry)`: numbers and parseable strings succeed (the
parsed value), non-parsing strings raise `ValueError` (here: `none`). -/
def pyFloat : BboxEntry → Option ℚ
  | .num q => some q
  | .strOk _ q => some q
  | .strBad _ => none

/-- Whether the entry is a Python `str`. -/
def entryIsStr : BboxEntry → Bool
  | .num _ => false
  | .strOk _ _ => true
  | .strBad _ => true

/-- The underlying string of a `str` entry (empty for numbers). -/
def entryString : BboxEntry → String
  | .num _ => ""
  | .strOk s _ => s
  | .strBad s => s

/-- Python `==` between bbox entries: numbers compare by value, strings
compare by text, a string never equals a number. -/
def entryEqb : BboxEntry → BboxEntry → Bool
  | .num a, .num b => a == b
  | a, b => entryIsStr a && entryIsStr b && (entryString a == entryString b)

/-- Python `repr(entry)` as it appears inside `str(list)`: strings are
quoted, numbers are not. -/
def entryRepr : BboxEntry → String
  | .num q => toString q
  | .strOk s _ => sq ++ s ++ sq
  | .strBad s => sq ++ s ++ sq

/-- Python `str(entry)` as interpolated directly into an f-string. -/
def entryStrPlain : BboxEntry → String
  | .num q => toString q
  | .strOk s _ => s
  | .strBad s => s

/-- Python `str(bbox)` for the bbox list. -/
def bboxRepr (l : List BboxEntry) : String :=
  "[" ++ String.intercalate ", " (l.map entryRepr) ++ "]"

/-- The `bbox` argument of `check_bbox`: `None`, some non-list value
(carrying its rendering), or a list of entries. -/
inductive BboxArg where
  | pynone
  | notAList (r : String)
  | lst (entries : List BboxEntry)

/-- Python `len(set(bbox)) == 1`: the (nonempty) list holds one distinct
value, i.e. every entry equals the first. -/
def pySetLenOne (l : List BboxEntry) : Bool :=
  match l with
  | [] => false
  | x :: xs => xs.all (entryEqb x)

/-- Message of the Python `TypeError` for a str/number comparison. -/
def cmpTypeErrMsg : String :=
  "unsupported operand comparison between instances of str and float"

/-- Python `a < b` on bbox entries. -/
def pyLt (a b : BboxEntry) : Except PyErr Bool :=
  match a, b with
  | .num x, .num y => .ok (decide (x < y))
  | a, b =>
    if entryIsStr a && entryIsStr b then .ok (decide (entryString a < entryString b))
    else .error (.typeError cmpTypeErrMsg)

/-- Python `a <= b` on bbox entries. -/
def pyLe (a b : BboxEntry) : Except PyErr Bool :=
  match a, b with
  | .num x, .num y => .ok (decide (x ≤ y))
  | a, b =>
    if entryIsStr a && entryIsStr b then .ok (decide (entryString a ≤ entryString b))
    else .error (.typeError cmpTypeErrMsg)

/-- Python short-circuit `and` over a fallible comparison chain. -/
def exceptAnd (a : Except PyErr Bool) (b : Unit → Except PyErr Bool) :
    Except PyErr Bool :=
  match a with
  | .error err => .error err
  | .ok false => .ok false
  | .ok true => b ()

/-- The chained comparison
`-180 <= west < east <= 180 and -90 <= south < north <= 90` of
`check_bbox` (`helpers.py`, line 144), with Python's left-to-right
short-circuit evaluation. -/
def rangeOk (w s e n : BboxEntry) : Except PyErr Bool :=
  exceptAnd (pyLe (.num (-180)) w) (fun _ =>
    exceptAnd (pyLt w e) (fun _ =>
      exceptAnd (pyLe e (.num 180)) (fun _ =>
        exceptAnd (pyLe (.num (-90)) s) (fun _ =>
          exceptAnd (pyLt s n) (fun _ =>
            pyLe n (.num 90))))))

/-- Concatenation of message fragments (each interpolated value is one
fragment). -/
def cat (parts : List String) : String := parts.foldl (fun a b => a ++ b) ""

/-- The shared message head `Error: Issue finding data from <connector>`. -/
def issueMsg (ct : String) : String := "Error: Issue finding data from " ++ ct

/-- Message for `bbox is None` (`helpers.py`, line 121): it asks for one
of bbox and area_polygon and does not mention the value `None`. -/
def bboxNoneMsg (ct : String) : String :=
  cat [issueMsg ct, ". Please specify at least one of ", sq, "bbox", sq,
       " and ", sq, "area_polygon", sq]

/-- Message for a non-list bbox (`helpers.py`, line 125). -/
def notAListMsg (ct r : String) : String :=
  cat [issueMsg ct, " with bbox ", sq, r, sq, ". Please specify ", sq,
       "bbox", sq, " as a list of floats."]

/-- Message for a bbox of length other than 4 (`helpers.py`, line 129). -/
def wrongLengthMsg (ct rep : String) : String :=
  cat [issueMsg ct, " with bbox ", sq, rep, sq, ". Please specify ", sq,
       "bbox", sq, " as a list of length 4."]

/-- Message for an entry that is not a float (`helpers.py`, line 136). -/
def notFloatMsg (ct rep item : String) : String :=
  cat [issueMsg ct, " with bbox ", sq, rep, sq, ". Please specify ", sq,
       "bbox", sq, " as a list of floats. The entry ", sq, item, sq,
       " is not a float."]

/-- The fragment `Cannot determine area from 'bbox'` the spec's scenario
looks for. -/
def cannotDetermineStr : String :=
  cat ["Cannot determine area from ", sq, "bbox", sq]

/-- Message for an all-equal bbox (`helpers.py`, line 140). -/
def setLenOneMsg (ct rep : String) : String :=
  cat [issueMsg ct, " with bbox ", sq, rep, sq, ". ", cannotDetermineStr,
       ". Please specify a valid area."]

/-- Message for an out-of-range or misordered bbox (`helpers.py`,
line 146). -/
def rangeMsg (ct rep : String) : String :=
  cat [issueMsg ct, " with bbox ", sq, rep, sq, ". Bbox is expected as ",
       sq, "west, south, east, north", sq, " or ", sq,
       "minx, miny, maxx, maxy", sq,
       " using EPSG: 4326 coordinate system."]

/-- `check_bbox` (`src/terrakit/validate/helpers.py`, lines 109-147): the
`None` check, the list check, the arity check, the per-entry `float()`
check, the `len(set(bbox)) == 1` check, and the chained range
comparison, in source order. -/
def checkBbox (bbox : BboxArg) (connectorType : String) : Except PyErr Unit :=
  match bbox with
  | .pynone => .error (.validationError (bboxNoneMsg connectorType))
  | .notAList r => .error (.validationError (notAListMsg connectorType r))
  | .lst entries =>
    if entries.length ≠ 4 then
      .error (.validationError (wrongLengthMsg connectorType (bboxRepr entries)))
    else
      match entries.find? (fun x => (pyFloat x).isNone) with
      | some x =>
        .error (.validationError
          (notFloatMsg connectorType (bboxRepr entries) (entryStrPlain x)))
      | none =>
        if pySetLenOne entries then
          .error (.validationError (setLenOneMsg connectorType (bboxRepr entries)))
        else
          match entries with
          | [w, s, e, n] =>
            (match rangeOk w s e n with
             | .error err => .error err
             | .ok true => .ok ()
             | .ok false =>
               .error (.validationError
                 (rangeMsg connectorType (bboxRepr [w, s, e, n]))))
          | _ => .ok ()

end Terrakit

namespace Terrakit

/-! ## Temporal filtering

`filter_by_time` (`src/terrakit/general_utils/geospatial_util.py`, lines
489-531) and `_convert_to_datetime` (lines 461-486).  The array's time
coordinate is a homogeneous sequence whose entries are Python datetimes,
numpy datetime64 values, ISO strings, or integer epoch-nanoseconds; each
representation encodes an instant, modelled as an integer.  Only native
Python datetimes carry a `tzinfo` attribute — accessing `.tzinfo` on any
of the other representations raises `AttributeError`. -/

/-- The runtime type of the entries of the time coordinate (the
`isinstance` branches of `_convert_to_datetime`). -/
inductive TimeKind where
  | native
  | npdt
  | strTime
  | intns
deriving DecidableEq, Repr

/-- `sorted(ts)[-1]`: the maximum of a (nonempty) list of instants. -/
def maxTime (ts : List Int) : Int := ts.foldl max (ts.headD 0)

/-- `bisect.bisect_left` on the (sorted) timestamp list: the number of
entries strictly below `x`. -/
def bisect_left (l : List Int) (x : Int) : Nat :=
  l.countP (fun t => decide (t < x))

/-- `bisect.bisect_right` on the (sorted) timestamp list: the number of
entries not above `x`. -/
def bisect_right (l : List Int) (x : Int) : Nat :=
  l.countP (fun t => decide (t ≤ x))

/-- `filter_by_time` (`geospatial_util.py`, lines 489-531). The data array
is the list of its time slices, each an instant paired with a payload.
The steps in source order: assert the temporal dimension nonempty; when
the end of the temporal extent is `None`, set it to `sorted(ts)[-1]` and
touch `.tzinfo` on it — an `AttributeError` unless the entries are native
datetimes; convert the index to instants; select `[start, end]` by binary
search, falling back to `isel([start_index])` (an `IndexError` when that
index is out of range) if the two indices coincide. -/
def filterByTime {α : Type} (kind : TimeKind) (data : List (Int × α))
    (startDate : Int) (endDate : Option Int) : Except PyErr (List (Int × α)) :=
  let ts := data.map Prod.fst
  if ts.isEmpty then .error .assertionError
  else
    let endv : Except PyErr Int :=
      match endDate with
      | some e => .ok e
      | none =>
        match kind with
        | .native => .ok (maxTime ts)
        | _ => .error .attributeError
    match endv with
    | .error e => .error e
    | .ok endValue =>
      let startIndex := bisect_left ts startDate
      let endIndex := bisect_right ts endValue
      if startIndex = endIndex then
        match data[startIndex]? with
        | some p => .ok [p]
        | none => .error .indexError
      else .ok ((data.drop startIndex).take (endIndex - startIndex))

end Terrakit

namespace Terrakit

/-! ## Duplicate-timestamp resolution

`remove_repeated_time_coords` (`src/terrakit/general_utils/
geospatial_util.py`, lines 534-565).  A data array is the list of its
time slices; a slice is its list of pixels, a pixel is a value or NaN
(`none`).  The function walks the time index in order keeping a dict from
timestamp to accumulated slice: a repeated timestamp merges via
`accumulated.combine_first(new)` (the accumulated value wins wherever it
is not NaN), a new timestamp appends; `xr.concat` then emits the dict's
values in insertion order. -/

/-- One pixel: a value, or NaN. -/
abbrev Pixel := Option Int

/-- One time slice: its pixels. -/
abbrev TimeSlice := List Pixel

/-- Keep the left value unless it is NaN. -/
def pixOr (x y : Pixel) : Pixel := x.orElse (fun _ => y)

/-- xarray `a.combine_first(b)` on two aligned slices: per pixel, `a`'s
value where `a` is not NaN, else `b`'s. -/
def combineFirst (a b : TimeSlice) : TimeSlice :=
  List.zipWith pixOr a b

/-- One step of the dict update: `array_by_time[t] =
array_by_time[t].combine_first(slice)` when `t` is already a key (the
entry keeps its position), `array_by_time[t] = slice` otherwise (the
entry is appended). -/
def upsertSlice (t : Int) (s : TimeSlice) :
    List (Int × TimeSlice) → List (Int × TimeSlice)
  | [] => [(t, s)]
  | p :: rest =>
    if p.1 = t then (p.1, combineFirst p.2 s) :: rest
    else p :: upsertSlice t s rest

/-- The loop of `remove_repeated_time_coords` over the time index, with
the dict as accumulator. -/
def mergeAux : List (Int × TimeSlice) → List (Int × TimeSlice) →
    List (Int × TimeSlice)
  | [], acc => acc
  | p :: rest, acc => mergeAux rest (upsertSlice p.1 p.2 acc)

/-- The dict built by the loop, emitted in insertion order. -/
def mergeByTime (arr : List (Int × TimeSlice)) : List (Int × TimeSlice) :=
  mergeAux arr []

/-- `remove_repeated_time_coords` (`geospatial_util.py`, lines 534-565):
if no timestamp repeats, the array is returned unchanged, otherwise the
slices are merged by timestamp. -/
def removeRepeatedTimeCoords (arr : List (Int × TimeSlice)) :
    List (Int × TimeSlice) :=
  if (arr.map Prod.fst).Nodup then arr else mergeByTime arr

/-- First-occurrence de-duplication, seen keys as accumulator. -/
def firstDedupAux (l : List Int) (acc : List Int) : List Int :=
  match l with
  | [] => acc
  | t :: rest =>
    if acc.contains t then firstDedupAux rest acc
    else firstDedupAux rest (acc ++ [t])

/-- The distinct timestamps in first-encounter order. -/
def firstDedup (l : List Int) : List Int := firstDedupAux l []

/-- The slices carrying timestamp `t`, in encounter order. -/
def slicesAt (t : Int) (arr : List (Int × TimeSlice)) : List TimeSlice :=
  (arr.filter (fun p => p.1 = t)).map Prod.snd

/-- Dict lookup: the slice stored at timestamp `t` (first entry wins). -/
def findSlice (t : Int) : List (Int × TimeSlice) → Option TimeSlice
  | [] => none
  | p :: rest => if p.1 = t then some p.2 else findSlice t rest

/-- The first non-NaN value of a pixel sequence. -/
def firstSome (l : List Pixel) : Pixel := l.foldl pixOr none

end Terrakit

namespace Terrakit

/-! ## Band checking and the Sentinel AWS download path

`check_bands` (`src/terrakit/download/geodata_utils.py`, lines 81-134)
and `Sentinel_AWS.get_data` (`src/terrakit/download/data_connectors/
sentinel_aws.py`, lines 388-474).  `check_bands` rewrites the caller's
band list in place: a requested name that is already a canonical band
name is kept; otherwise the first band spec listing it among its
`alt_names` substitutes the canonical `band_name`; otherwise the loop
`break`s, leaving the remaining entries untouched.  `get_data` then
labels every fetched per-date array with that rewritten list as its
`band` coordinate and concatenates along `time`. -/

/-- One entry of a collection's band table in `collections.json`: the
canonical `band_name` and its recognized `alt_names`. -/
structure BandSpec where
  band_name : String
  alt_names : List String
deriving DecidableEq, Repr

/-- One collection entry of `collections.json`. -/
structure CollectionDetails where
  collection_name : String
  bands : List BandSpec
deriving DecidableEq, Repr

/-- The rewrite loop of `check_bands` (`geodata_utils.py`, lines
111-132). -/
def checkBandsGo (specs : List BandSpec) : List String → List String
  | [] => []
  | b :: rest =>
    if (specs.map (fun X => X.band_name)).contains b then
      b :: checkBandsGo specs rest
    else
      match specs.find? (fun X => X.alt_names.contains b) with
      | some X => X.band_name :: checkBandsGo specs rest
      | none => b :: rest

/-- `check_bands` (`geodata_utils.py`, lines 81-134): find the
collection's details (a `ValueError` when the connector's
`collections.json` lacks them), then rewrite the band list. -/
def checkBands (allCollections : List CollectionDetails)
    (collectionName : String) (bands : List String) :
    Except PyErr (List String) :=
  match allCollections.find?
      (fun cd => cd.collection_name == collectionName) with
  | none => .error (.valueError "Unable to find collection details")
  | some cd => .ok (checkBandsGo cd.bands bands)

/-- One per-date array fetched by `get_sh_aws_data` after `get_data`
assigns its coordinates (`sentinel_aws.py`, line 468): the `time`
coordinate and the `band` coordinate. -/
structure DateSlice where
  time : String
  band : List String
deriving DecidableEq, Repr

/-- The raster cube `get_data` returns: the `time` coordinate of the
concatenation and the shared `band` coordinate. -/
structure Cube where
  times : List String
  band : List String
deriving DecidableEq, Repr

/-- A two-band collection table used to exercise the download path: the
canonical bands red and green, with aliases B04 and B03. -/
def exampleCollections : List CollectionDetails :=
  [⟨"sentinel-2-l2a", [⟨"red", ["B04"]⟩, ⟨"green", ["B03"]⟩]⟩]

/-- `Sentinel_AWS.get_data` (`sentinel_aws.py`, lines 388-474) with the
network abstracted: `collections` is the connector's static
`collections.json` content and `uniqueDates` the date list its internal
`find_data` resolves.  In source order: collection-existence check,
in-place band rewrite by `check_bands`, one fetched array per date
labelled with the rewritten `bands` as its `band` coordinate, and
`xr.concat` along `time` (which raises `ValueError` on an empty list). -/
def sentinelAwsGetData (collections : List CollectionDetails)
    (collectionName : String) (bands : List String)
    (uniqueDates : List String) : Except PyErr Cube :=
  if ¬ (collections.map (fun cd => cd.collection_name)).contains
      collectionName then
    .error (.valueError
      (cat ["Invalid collection ", sq, collectionName, sq]))
  else
    match checkBands collections collectionName bands with
    | .error e => .error e
    | .ok bands2 =>
      match uniqueDates.map
          (fun d => ({ time := d, band := bands2 } : DateSlice)) with
      | [] => .error (.valueError "cannot concatenate an empty list")
      | s0 :: rest =>
        .ok { times := (s0 :: rest).map (fun s => s.time), band := s0.band }

end Terrakit

namespace Terrakit

/-! ## Substring lemmas for the message machinery -/

/-- A needle that is an initial segment of its own extension. -/
theorem startsWithChars_append (x b : List Char) :
    startsWithChars (x ++ b) x = true := by
  induction x with
  | nil => cases b <;> rfl
  | cons h t ih => simp [startsWithChars, ih]

/-- An occurrence at the head of the haystack is an occurrence. -/
theorem subOccurs_of_startsWith {x hay : List Char}
    (h : startsWithChars hay x = true) : subOccurs x hay = true := by
  cases hay with
  | nil => simpa [subOccurs] using h
  | cons c t => simp [subOccurs, h]

/-- Occurrences survive extending the haystack on the left. -/
theorem subOccurs_append_left (x hay : List Char) :
    ∀ a, subOccurs x hay = true → subOccurs x (a ++ hay) = true := by
  intro a
  induction a with
  | nil => exact fun h => h
  | cons c t ih =>
    intro h
    simp only [List.cons_append, subOccurs, Bool.or_eq_true]
    exact Or.inr (ih h)

/-- Concatenating message fragments concatenates their characters. -/
theorem cat_data (parts : List String) :
    (cat parts).data = (parts.map String.data).flatten := by
  suffices h : ∀ acc : String,
      (parts.foldl (fun a b => a ++ b) acc).data
        = acc.data ++ (parts.map String.data).flatten by
    simpa using h ""
  induction parts with
  | nil => intro acc; simp
  | cons p ps ih =>
    intro acc
    simp [List.foldl_cons, ih (acc ++ p), String.data_append, List.append_assoc]

/-- Any fragment of a concatenated message occurs in the message. -/
theorem containsSub_cat_mem (parts : List String) (x : String)
    (hx : x ∈ parts) : containsSub (cat parts) x = true := by
  unfold containsSub
  rw [cat_data]
  obtain ⟨s, t, rfl⟩ := List.append_of_mem hx
  rw [List.map_append, List.map_cons, List.flatten_append, List.flatten_cons]
  refine subOccurs_append_left _ _ _ ?_
  exact subOccurs_of_startsWith (startsWithChars_append _ _)

/-! ## Theorems: factory, discovery, cloud filter, reprojection -/

/-- C2: the connector-type enumeration contains "climate_data_store", yet
`DataConnector("climate_data_store")` does not produce a connector: the
factory's dispatch has no branch for that name and raises
`TerrakitValidationError "Invalid connector type: 'climate_data_store'"`.
The other five enumerated names produce their connector, and a name
outside the enumeration ("invalid_data_source") raises the validation
error with the expected message. -/
theorem climate_data_store_factory_gap :
    connectorTypeLiterals.contains "climate_data_store" = true
    ∧ dataConnectorInit "climate_data_store"
        = .error (.validationError (invalidConnectorMsg "climate_data_store"))
    ∧ dataConnectorInit "sentinelhub" = .ok .sentinelHub
    ∧ dataConnectorInit "nasa_earthdata" = .ok .nasaEarthData
    ∧ dataConnectorInit "sentinel_aws" = .ok .sentinelAWS
    ∧ dataConnectorInit "IBMResearchSTAC" = .ok .ibmResearchSTAC
    ∧ dataConnectorInit "TheWeatherCompany" = .ok .theWeatherCompany
    ∧ dataConnectorInit "invalid_data_source"
        = .error (.validationError (invalidConnectorMsg "invalid_data_source"))
    ∧ containsSub (invalidConnectorMsg "invalid_data_source")
        (sq ++ "invalid_data_source" ++ sq) = true := by
  refine ⟨rfl, rfl, rfl, rfl, rfl, rfl, rfl, rfl, ?_⟩
  decide

/-- C10: the Sentinel AWS maximum-cloud-cover filter keeps an item exactly
when `maxcc` is falsy (`None` or `0`, which disables the filter) or the
item's `eo:cloud_cover` is strictly below `maxcc`; an item whose cloud
cover equals `maxcc` is excluded. -/
theorem maxcc_filter_membership (items : List StacItem) (maxcc : Option ℚ)
    (it : StacItem) :
    it ∈ filterByMaxcc items maxcc ↔
      (it ∈ items ∧
        (maxccTruthy maxcc = false ∨ it.cloud_cover < maxcc.getD 0)) := by
  unfold filterByMaxcc
  by_cases h : maxccTruthy maxcc
  · simp [h, List.mem_filter]
  · simp only [Bool.not_eq_true] at h
    simp [h]

/-- C3: when discovery yields zero matching items, `find_data` returns the
empty result rather than raising — here shown on the NASA Earthdata
connector, whose post-discovery pipeline maps an empty item list to
`([], [])` for every cloud-cover setting — except in Sentinel AWS, where
`find_sh_aws_stac_items` raises `TerrakitValueError` on zero discovered
items (and `Sentinel_AWS.find_data` propagates it, since
`TerrakitValueError` is not a `ValueError`). -/
theorem zero_items_empty_result_except_sentinel_aws (maxcc : Option ℚ) :
    nasaFindData [] maxcc = ([], [])
    ∧ findShAwsStacItems [] maxcc = .error (.valueError noItemsMsg) := by
  constructor
  · unfold nasaFindData
    by_cases h : maxccTruthy maxcc <;> simp [h, sortedDedup]
  · rfl

/-- On an ordered bbox, the 0-360-system branch of `reproject_bbox`
(4326 to 4326) succeeds and folds the two longitudes. -/
theorem reprojectBbox4326_eq_fold (b : Bbox4)
    (hx : b.minx ≤ b.maxx) (hy : b.miny ≤ b.maxy) :
    reprojectBbox4326 b true
      = .ok ⟨(if b.minx < 0 then b.minx + 360 else b.minx), b.miny,
             (if b.maxx < 0 then b.maxx + 360 else b.maxx), b.maxy⟩ := by
  simp [reprojectBbox4326, hx, hy, convertTo360DegreeSystem]

/-- C8: for a 0-360-degree-system bbox with longitudes in the valid
[-180, 180] range (and an ordered bbox), `reproject_bbox` to EPSG:4326
succeeds and both output longitudes lie in [0, 360). -/
theorem reproject_bbox_360_output_range (b : Bbox4)
    (hminx : -180 ≤ b.minx) (hx : b.minx ≤ b.maxx) (hmaxx : b.maxx ≤ 180)
    (hy : b.miny ≤ b.maxy) :
    ∃ r, reprojectBbox4326 b true = .ok r
      ∧ 0 ≤ r.minx ∧ r.minx < 360 ∧ 0 ≤ r.maxx ∧ r.maxx < 360
      ∧ r.miny = b.miny ∧ r.maxy = b.maxy := by
  have hminx' : -180 ≤ b.maxx := le_trans hminx hx
  refine ⟨⟨(if b.minx < 0 then b.minx + 360 else b.minx), b.miny,
          (if b.maxx < 0 then b.maxx + 360 else b.maxx), b.maxy⟩,
          reprojectBbox4326_eq_fold b hx hy, ?_, ?_, ?_, ?_, rfl, rfl⟩
  · by_cases h : b.minx < 0 <;> simp only [h, if_true, if_false] <;> linarith
  · by_cases h : b.minx < 0 <;> simp only [h, if_true, if_false] <;> linarith
  · by_cases h : b.maxx < 0 <;> simp only [h, if_true, if_false] <;> linarith
  · by_cases h : b.maxx < 0 <;> simp only [h, if_true, if_false] <;> linarith

/-- Witness for C8 at the bbox (-91, 40, -90, 41). -/
theorem reproject_bbox_360_output_range_witness :
    ((-180 : ℚ) ≤ -91 ∧ (-91 : ℚ) ≤ -90 ∧ (-90 : ℚ) ≤ 180 ∧ (40 : ℚ) ≤ 41)
    ∧ (∃ r, reprojectBbox4326 ⟨-91, 40, -90, 41⟩ true = .ok r
        ∧ 0 ≤ r.minx ∧ r.minx < 360 ∧ 0 ≤ r.maxx ∧ r.maxx < 360
        ∧ r.miny = (40 : ℚ) ∧ r.maxy = (41 : ℚ)) :=
  ⟨by norm_num,
   reproject_bbox_360_output_range ⟨-91, 40, -90, 41⟩ (by norm_num) (by norm_num)
     (by norm_num) (by norm_num)⟩

/-- C7 counterexample: for the 0-360-system bbox (-10, 0, 10, 1) with
target EPSG:4326, `reproject_bbox` returns minimum longitude 350, which
does not lie in [-180, 180). -/
theorem reproject_bbox_not_minus180_180 :
    reprojectBbox4326 ⟨-10, 0, 10, 1⟩ true = .ok ⟨350, 0, 10, 1⟩
    ∧ ¬ ((350 : ℚ) < 180) := by
  constructor
  · have h := reprojectBbox4326_eq_fold ⟨-10, 0, 10, 1⟩ (by norm_num) (by norm_num)
    norm_num at h
    exact h
  · norm_num

/-- C7 amended: for a 0-360-degree-system bbox with target CRS EPSG:4326
(longitudes in the valid [-180, 180] range, ordered bbox), the output
longitudes of `reproject_bbox` are the inputs folded into the 0-360-degree
system — each negative longitude shifted by +360 — and hence lie in
[0, 360), not in [-180, 180). -/
theorem reproject_bbox_360_fold (b : Bbox4)
    (hminx : -180 ≤ b.minx) (hx : b.minx ≤ b.maxx) (hmaxx : b.maxx ≤ 180)
    (hy : b.miny ≤ b.maxy) :
    ∃ r, reprojectBbox4326 b true = .ok r
      ∧ r.minx = (if b.minx < 0 then b.minx + 360 else b.minx)
      ∧ r.maxx = (if b.maxx < 0 then b.maxx + 360 else b.maxx)
      ∧ 0 ≤ r.minx ∧ r.minx < 360 ∧ 0 ≤ r.maxx ∧ r.maxx < 360 := by
  refine ⟨⟨(if b.minx < 0 then b.minx + 360 else b.minx), b.miny,
          (if b.maxx < 0 then b.maxx + 360 else b.maxx), b.maxy⟩,
          reprojectBbox4326_eq_fold b hx hy, rfl, rfl, ?_, ?_, ?_, ?_⟩
  · by_cases h : b.minx < 0 <;> simp only [h, if_true, if_false] <;> linarith
  · by_cases h : b.minx < 0 <;> simp only [h, if_true, if_false] <;> linarith
  · by_cases h : b.maxx < 0 <;> simp only [h, if_true, if_false] <;> linarith
  · by_cases h : b.maxx < 0 <;> simp only [h, if_true, if_false] <;> linarith

/-- Witness for the amended C7 at the bbox (-10, 0, 10, 1). -/
theorem reproject_bbox_360_fold_witness :
    ((-180 : ℚ) ≤ -10 ∧ (-10 : ℚ) ≤ 10 ∧ (10 : ℚ) ≤ 180 ∧ (0 : ℚ) ≤ 1)
    ∧ (∃ r, reprojectBbox4326 ⟨-10, 0, 10, 1⟩ true = .ok r
        ∧ r.minx = (if (-10 : ℚ) < 0 then -10 + 360 else -10)
        ∧ r.maxx = (if (10 : ℚ) < 0 then 10 + 360 else 10)
        ∧ 0 ≤ r.minx ∧ r.minx < 360 ∧ 0 ≤ r.maxx ∧ r.maxx < 360) :=
  ⟨by norm_num,
   reproject_bbox_360_fold ⟨-10, 0, 10, 1⟩ (by norm_num) (by norm_num)
     (by norm_num) (by norm_num)⟩

end Terrakit

namespace Terrakit

/-- The chained range comparison on four numeric entries evaluates the
full conjunction (no `TypeError` arises between numbers). -/
theorem rangeOk_num (w s e n : ℚ) :
    rangeOk (.num w) (.num s) (.num e) (.num n)
      = .ok (decide (-180 ≤ w ∧ w < e ∧ e ≤ 180 ∧ -90 ≤ s ∧ s < n ∧ n ≤ 90)) := by
  by_cases h1 : (-180 : ℚ) ≤ w
  · by_cases h2 : w < e
    · by_cases h3 : e ≤ (180 : ℚ)
      · by_cases h4 : (-90 : ℚ) ≤ s
        · by_cases h5 : s < n
          · by_cases h6 : n ≤ (90 : ℚ)
            · simp [rangeOk, exceptAnd, pyLe, pyLt, h1, h2, h3, h4, h5, h6]
            · simp [rangeOk, exceptAnd, pyLe, pyLt, h1, h2, h3, h4, h5, h6]
          · simp [rangeOk, exceptAnd, pyLe, pyLt, h1, h2, h3, h4, h5]
        · simp [rangeOk, exceptAnd, pyLe, pyLt, h1, h2, h3, h4]
      · simp [rangeOk, exceptAnd, pyLe, pyLt, h1, h2, h3]
    · simp [rangeOk, exceptAnd, pyLe, pyLt, h1, h2]
  · simp [rangeOk, exceptAnd, pyLe, pyLt, h1]

end Terrakit

namespace Terrakit

/-- C5 (amended): `check_bbox` raises a validation error exactly when the
bbox is invalid.  Every list of four numbers with
-180 <= west < east <= 180 and -90 <= south < north <= 90 passes; every
four-number bbox violating that range condition (in particular every
all-equal one, and every misordered one) raises a validation error whose
message names the bbox value; a list of the wrong arity raises a
validation error naming the value; a list containing a non-numeric entry
raises a validation error naming the value; a non-list bbox raises a
validation error naming the value; `None` raises a validation error
(whose message asks for one of bbox and area_polygon instead of naming
the value); and for the bbox [0, 0, 0, 0] the message contains
`Cannot determine area from 'bbox'`. -/
theorem check_bbox_validation (ct : String) :
    (∀ w s e n : ℚ, -180 ≤ w → w < e → e ≤ 180 → -90 ≤ s → s < n → n ≤ 90 →
      checkBbox (.lst [.num w, .num s, .num e, .num n]) ct = .ok ())
    ∧ (∀ w s e n : ℚ,
        ¬ (-180 ≤ w ∧ w < e ∧ e ≤ 180 ∧ -90 ≤ s ∧ s < n ∧ n ≤ 90) →
        ∃ m, checkBbox (.lst [.num w, .num s, .num e, .num n]) ct
            = .error (.validationError m)
          ∧ containsSub m (bboxRepr [.num w, .num s, .num e, .num n]) = true)
    ∧ (∀ l : List BboxEntry, l.length ≠ 4 →
        ∃ m, checkBbox (.lst l) ct = .error (.validationError m)
          ∧ containsSub m (bboxRepr l) = true)
    ∧ (∀ l : List BboxEntry, l.length = 4 → (∃ x ∈ l, pyFloat x = none) →
        ∃ m, checkBbox (.lst l) ct = .error (.validationError m)
          ∧ containsSub m (bboxRepr l) = true)
    ∧ (∀ r : String,
        ∃ m, checkBbox (.notAList r) ct = .error (.validationError m)
          ∧ containsSub m r = true)
    ∧ (∃ m, checkBbox .pynone ct = .error (.validationError m))
    ∧ (∃ m, checkBbox (.lst [.num 0, .num 0, .num 0, .num 0]) "sentinel_aws"
          = .error (.validationError m)
        ∧ containsSub m cannotDetermineStr = true) := by
  refine ⟨?_, ?_, ?_, ?_, ?_, ?_, ?_⟩
  · intro w s e n h1 h2 h3 h4 h5 h6
    have hset : pySetLenOne [.num w, .num s, .num e, .num n] = false := by
      simp only [pySetLenOne, List.all_cons, List.all_nil, entryEqb,
        Bool.and_true, Bool.and_eq_false_iff, beq_eq_false_iff_ne, ne_eq]
      exact Or.inr (Or.inl (ne_of_lt h2))
    have hd : decide (-180 ≤ w ∧ w < e ∧ e ≤ 180 ∧ -90 ≤ s ∧ s < n ∧ n ≤ 90)
        = true := by
      simp only [decide_eq_true_eq]
      exact ⟨h1, h2, h3, h4, h5, h6⟩
    simp [checkBbox, List.find?, pyFloat, hset, rangeOk_num, hd]
  · intro w s e n hbad
    have hfind : List.find? (fun x => (pyFloat x).isNone)
        [.num w, .num s, .num e, .num n] = none := by
      simp [List.find?, pyFloat]
    have hd : decide (-180 ≤ w ∧ w < e ∧ e ≤ 180 ∧ -90 ≤ s ∧ s < n ∧ n ≤ 90)
        = false := decide_eq_false hbad
    by_cases hset : pySetLenOne [.num w, .num s, .num e, .num n]
    · refine ⟨setLenOneMsg ct (bboxRepr [.num w, .num s, .num e, .num n]),
        ?_, containsSub_cat_mem _ _ (by simp [setLenOneMsg])⟩
      simp [checkBbox, hfind, hset]
    · refine ⟨rangeMsg ct (bboxRepr [.num w, .num s, .num e, .num n]),
        ?_, containsSub_cat_mem _ _ (by simp [rangeMsg])⟩
      simp [checkBbox, hfind, hset, rangeOk_num, hd]
  · intro l hlen
    refine ⟨wrongLengthMsg ct (bboxRepr l), ?_,
      containsSub_cat_mem _ _ (by simp [wrongLengthMsg])⟩
    simp [checkBbox, hlen]
  · intro l hlen hbad
    have hsome : (List.find? (fun x => (pyFloat x).isNone) l).isSome := by
      rcases hbad with ⟨x, hx, hnone⟩
      refine List.find?_isSome.mpr ⟨x, hx, ?_⟩
      simp [hnone]
    obtain ⟨x', hx'⟩ := Option.isSome_iff_exists.mp hsome
    refine ⟨notFloatMsg ct (bboxRepr l) (entryStrPlain x'), ?_,
      containsSub_cat_mem _ _ (by simp [notFloatMsg])⟩
    simp [checkBbox, hlen, hx']
  · intro r
    exact ⟨notAListMsg ct r, rfl,
      containsSub_cat_mem _ _ (by simp [notAListMsg])⟩
  · exact ⟨bboxNoneMsg ct, rfl⟩
  · refine ⟨setLenOneMsg "sentinel_aws"
        (bboxRepr [.num 0, .num 0, .num 0, .num 0]), ?_,
      containsSub_cat_mem _ _ (by simp [setLenOneMsg])⟩
    simp [checkBbox, List.find?, pyFloat, pySetLenOne, entryEqb]

/-- Witness for the amended C5 at a valid bbox and the degenerate bbox
[0, 0, 0, 0]. -/
theorem check_bbox_validation_witness :
    ((-180 : ℚ) ≤ 34 ∧ (34 : ℚ) < 35 ∧ (35 : ℚ) ≤ 180
      ∧ (-90 : ℚ) ≤ -1 ∧ (-1 : ℚ) < 0 ∧ (0 : ℚ) ≤ 90)
    ∧ checkBbox (.lst [.num 34, .num (-1), .num 35, .num 0]) "sentinel_aws"
        = .ok ()
    ∧ (∃ m, checkBbox (.lst [.num 0, .num 0, .num 0, .num 0]) "sentinel_aws"
          = .error (.validationError m)
        ∧ containsSub m cannotDetermineStr = true) :=
  ⟨by norm_num,
   (check_bbox_validation "sentinel_aws").1 34 (-1) 35 0 (by norm_num)
     (by norm_num) (by norm_num) (by norm_num) (by norm_num) (by norm_num),
   (check_bbox_validation "sentinel_aws").2.2.2.2.2.2⟩

/-- C5 counterexample: for the bbox `None`, `check_bbox` raises a
validation error whose message does not name the bbox value (the Python
rendering `None` does not occur in it) — it asks the caller to specify
one of bbox and area_polygon instead. -/
theorem check_bbox_none_message_not_named :
    checkBbox .pynone "sentinel_aws"
      = .error (.validationError (bboxNoneMsg "sentinel_aws"))
    ∧ containsSub (bboxNoneMsg "sentinel_aws") "None" = false :=
  ⟨rfl, by decide⟩

end Terrakit

namespace Terrakit

/-! ## Theorems: temporal filtering -/

/-- In a strictly increasing list, the entries below the k-th one are
exactly the first k. -/
theorem countP_lt_sorted (ts : List Int) (hs : ts.Sorted (· < ·)) :
    ∀ (k : Nat) (hk : k < ts.length),
      ts.countP (fun t => decide (t < ts[k])) = k := by
  induction ts with
  | nil => intro k hk; simp at hk
  | cons x rest ih =>
    intro k hk
    have hx : ∀ t ∈ rest, x < t := List.rel_of_sorted_cons hs
    cases k with
    | zero =>
      simp only [List.getElem_cons_zero, List.countP_cons]
      rw [List.countP_eq_zero.mpr]
      · simp
      · intro t ht
        simp only [decide_eq_true_eq]
        exact fun hlt => absurd hlt (not_lt_of_gt (hx t ht))
    | succ k =>
      have hk' : k < rest.length := by simpa using hk
      simp only [List.getElem_cons_succ, List.countP_cons]
      have hxlt : x < rest[k] := hx _ (List.getElem_mem hk')
      rw [ih hs.of_cons k hk']
      simp [hxlt]

/-- In a strictly increasing list, the entries not above the k-th one are
exactly the first k+1. -/
theorem countP_le_sorted (ts : List Int) (hs : ts.Sorted (· < ·)) :
    ∀ (k : Nat) (hk : k < ts.length),
      ts.countP (fun t => decide (t ≤ ts[k])) = k + 1 := by
  induction ts with
  | nil => intro k hk; simp at hk
  | cons x rest ih =>
    intro k hk
    have hx : ∀ t ∈ rest, x < t := List.rel_of_sorted_cons hs
    cases k with
    | zero =>
      simp only [List.getElem_cons_zero, List.countP_cons]
      rw [List.countP_eq_zero.mpr]
      · simp
      · intro t ht
        simp only [decide_eq_true_eq]
        exact fun hle => absurd (lt_of_lt_of_le (hx t ht) hle) (lt_irrefl x)
    | succ k =>
      have hk' : k < rest.length := by simpa using hk
      simp only [List.getElem_cons_succ, List.countP_cons]
      have hxlt : x ≤ rest[k] := (hx _ (List.getElem_mem hk')).le
      rw [ih hs.of_cons k hk']
      simp [hxlt]

/-- C9: on an array whose time coordinate is strictly increasing, asking
`filter_by_time` for the degenerate extent `[t_k, t_k]` at a present
timestamp returns exactly the one slice at `t_k`, never an empty range. -/
theorem filter_by_time_single_timestamp {α : Type} (kind : TimeKind)
    (data : List (Int × α)) (k : Nat) (p : Int × α)
    (hmem : data[k]? = some p)
    (hsorted : (data.map Prod.fst).Sorted (· < ·)) :
    filterByTime kind data p.1 (some p.1) = .ok [p] := by
  have hk : k < data.length := by
    by_contra h
    rw [List.getElem?_eq_none (le_of_not_lt h)] at hmem
    exact Option.noConfusion hmem
  have hget : data[k] = p := by
    rw [List.getElem?_eq_getElem hk] at hmem
    simpa using hmem
  have hkts : k < (data.map Prod.fst).length := by simpa using hk
  have htk : (data.map Prod.fst)[k] = p.1 := by
    rw [List.getElem_map, hget]
  have hne : ¬ (data.map Prod.fst).isEmpty := by
    cases data with
    | nil => simp at hk
    | cons a l => simp
  have hsi : bisect_left (data.map Prod.fst) p.1 = k := by
    unfold bisect_left
    rw [← htk]
    exact countP_lt_sorted _ hsorted k hkts
  have hei : bisect_right (data.map Prod.fst) p.1 = k + 1 := by
    unfold bisect_right
    rw [← htk]
    exact countP_le_sorted _ hsorted k hkts
  have hdrop : (data.drop k).take 1 = [p] := by
    rw [List.drop_eq_getElem_cons hk]
    simp [hget]
  simp only [filterByTime, hne, if_false, Bool.false_eq_true, hsi, hei]
  rw [if_neg (by omega)]
  simpa using hdrop

/-- Witness for C9 on a two-slice array at k = 1. -/
theorem filter_by_time_single_timestamp_witness :
    (([((0 : Int), (10 : Int)), (5, 20)])[1]? = some (5, 20)
      ∧ (([((0 : Int), (10 : Int)), (5, 20)]).map Prod.fst).Sorted (· < ·))
    ∧ filterByTime .npdt [((0 : Int), (10 : Int)), (5, 20)] 5 (some 5)
        = .ok [(5, 20)] :=
  ⟨⟨by decide, by decide⟩,
   filter_by_time_single_timestamp .npdt [(0, 10), (5, 20)] 1 (5, 20)
     (by decide) (by decide)⟩

/-- C6: with an open-ended extent `(start, None)`, `filter_by_time`
resolves the missing end to `sorted(ts)[-1]` and then reads `.tzinfo`
from that raw value; for integer epoch-nanosecond, string, and
numpy-datetime64 time coordinates this raises `AttributeError` instead of
keeping every timestamp at or after `start` — only native-datetime
coordinates behave as the claim states, as the final conjunct shows on a
concrete array where `(start, None)` agrees with `(start, t_max)`. -/
theorem filter_by_time_open_end_crash :
    filterByTime .intns [((0 : Int), (0 : Int))] 0 none = .error .attributeError
    ∧ filterByTime .strTime [((0 : Int), (0 : Int))] 0 none
        = .error .attributeError
    ∧ filterByTime .npdt [((0 : Int), (0 : Int))] 0 none
        = .error .attributeError
    ∧ filterByTime .native [((0 : Int), (0 : Int)), (5, 1)] 0 none
        = filterByTime .native [((0 : Int), (0 : Int)), (5, 1)] 0 (some 5) := by
  exact ⟨rfl, rfl, rfl, rfl⟩

end Terrakit

namespace Terrakit

/-! ## Theorems: duplicate-timestamp resolution -/

/-- Merging two aligned slices keeps the common length. -/
theorem combineFirst_length (a b : TimeSlice) :
    (combineFirst a b).length = min a.length b.length := by
  simp [combineFirst]

/-- Merging two aligned slices acts per pixel. -/
theorem combineFirst_getD (a b : TimeSlice) (j : Nat)
    (ha : j < a.length) (hb : j < b.length) :
    (combineFirst a b).getD j none = pixOr (a.getD j none) (b.getD j none) := by
  simp [combineFirst, List.getD_eq_getElem?_getD, List.getElem?_zipWith,
    List.getElem?_eq_getElem ha, List.getElem?_eq_getElem hb]

/-- Unfolding equation of `upsertSlice` on the empty dict. -/
theorem upsertSlice_nil (t : Int) (s : TimeSlice) :
    upsertSlice t s [] = [(t, s)] := rfl

/-- Unfolding equation of `upsertSlice` on a nonempty dict. -/
theorem upsertSlice_cons (t : Int) (s : TimeSlice) (p : Int × TimeSlice)
    (rest : List (Int × TimeSlice)) :
    upsertSlice t s (p :: rest) =
      if p.1 = t then (p.1, combineFirst p.2 s) :: rest
      else p :: upsertSlice t s rest := rfl

/-- Unfolding equation of `findSlice` on the empty dict. -/
theorem findSlice_nil (t : Int) : findSlice t [] = none := rfl

/-- Unfolding equation of `findSlice` on a nonempty dict. -/
theorem findSlice_cons (t : Int) (p : Int × TimeSlice)
    (rest : List (Int × TimeSlice)) :
    findSlice t (p :: rest) =
      if p.1 = t then some p.2 else findSlice t rest := rfl

/-- The dict update keeps the key set when the key is present and appends
it otherwise. -/
theorem upsertSlice_keys (t : Int) (s : TimeSlice) :
    ∀ l : List (Int × TimeSlice),
      (upsertSlice t s l).map Prod.fst =
        if (l.map Prod.fst).contains t then l.map Prod.fst
        else l.map Prod.fst ++ [t] := by
  intro l
  induction l with
  | nil => simp [upsertSlice_nil]
  | cons p rest ih =>
    by_cases hp : p.1 = t
    · rw [upsertSlice_cons, if_pos hp, List.map_cons, List.map_cons]
      have hc : ((p.1 :: rest.map Prod.fst).contains t) = true := by
        simp [List.contains_cons, hp]
      rw [if_pos hc]
    · rw [upsertSlice_cons, if_neg hp, List.map_cons, List.map_cons, ih,
        List.contains_cons]
      have hbeq : (t == p.1) = false :=
        beq_eq_false_iff_ne.mpr (fun h => hp h.symm)
      rw [hbeq]
      simp only [Bool.false_or]
      by_cases hmem : (rest.map Prod.fst).contains t = true
      · rw [if_pos hmem, if_pos hmem]
      · rw [if_neg hmem, if_neg hmem, List.cons_append]

/-- Looking up the updated key merges the accumulated slice with the new
one (or installs the new one). -/
theorem upsertSlice_findSlice_same (t : Int) (s : TimeSlice) :
    ∀ l : List (Int × TimeSlice),
      findSlice t (upsertSlice t s l) =
        (match findSlice t l with
         | some old => some (combineFirst old s)
         | none => some s) := by
  intro l
  induction l with
  | nil =>
    rw [upsertSlice_nil, findSlice_cons, findSlice_nil]
    simp
  | cons p rest ih =>
    by_cases hp : p.1 = t
    · rw [upsertSlice_cons, if_pos hp, findSlice_cons, findSlice_cons,
        if_pos hp, if_pos hp]
    · rw [upsertSlice_cons, if_neg hp, findSlice_cons, findSlice_cons,
        if_neg hp, if_neg hp]
      exact ih

/-- Looking up any other key is unchanged by the dict update. -/
theorem upsertSlice_findSlice_other (t u : Int) (s : TimeSlice) (hne : u ≠ t) :
    ∀ l : List (Int × TimeSlice),
      findSlice u (upsertSlice t s l) = findSlice u l := by
  intro l
  induction l with
  | nil =>
    rw [upsertSlice_nil, findSlice_cons, findSlice_nil]
    exact if_neg (fun h => hne h.symm)
  | cons p rest ih =>
    by_cases hp : p.1 = t
    · have hpu : ¬ p.1 = u := fun h => hne (hp ▸ h ▸ rfl)
      rw [upsertSlice_cons, if_pos hp, findSlice_cons, findSlice_cons,
        if_neg hpu, if_neg hpu]
    · by_cases hu : p.1 = u
      · rw [upsertSlice_cons, if_neg hp, findSlice_cons, findSlice_cons,
          if_pos hu, if_pos hu]
      · rw [upsertSlice_cons, if_neg hp, findSlice_cons, findSlice_cons,
          if_neg hu, if_neg hu]
        exact ih

end Terrakit

namespace Terrakit

/-- Unfolding equation of the merge loop on the empty index. -/
theorem mergeAux_nil (acc : List (Int × TimeSlice)) : mergeAux [] acc = acc := rfl

/-- Unfolding equation of the merge loop on a nonempty index. -/
theorem mergeAux_cons (p : Int × TimeSlice) (rest acc : List (Int × TimeSlice)) :
    mergeAux (p :: rest) acc = mergeAux rest (upsertSlice p.1 p.2 acc) := rfl

/-- Unfolding equation of first-occurrence de-duplication (empty). -/
theorem firstDedupAux_nil (acc : List Int) : firstDedupAux [] acc = acc := rfl

/-- Unfolding equation of first-occurrence de-duplication (cons). -/
theorem firstDedupAux_cons (t : Int) (rest acc : List Int) :
    firstDedupAux (t :: rest) acc =
      if acc.contains t then firstDedupAux rest acc
      else firstDedupAux rest (acc ++ [t]) := rfl

/-- Unfolding equation of `slicesAt` (cons). -/
theorem slicesAt_cons (t : Int) (p : Int × TimeSlice)
    (rest : List (Int × TimeSlice)) :
    slicesAt t (p :: rest) =
      if p.1 = t then p.2 :: slicesAt t rest else slicesAt t rest := by
  by_cases hp : p.1 = t <;> simp [slicesAt, List.filter_cons, hp]

/-- The keys of the merged dict are the first-occurrence de-duplicated
keys of the index. -/
theorem mergeAux_keys :
    ∀ (arr acc : List (Int × TimeSlice)),
      (mergeAux arr acc).map Prod.fst
        = firstDedupAux (arr.map Prod.fst) (acc.map Prod.fst) := by
  intro arr
  induction arr with
  | nil => intro acc; rfl
  | cons p rest ih =>
    intro acc
    rw [mergeAux_cons, ih, List.map_cons, firstDedupAux_cons, upsertSlice_keys]
    by_cases hm : (acc.map Prod.fst).contains p.1 = true
    · rw [if_pos hm, if_pos hm]
    · rw [if_neg hm, if_neg hm]

/-- Merging on top of a dict that already holds `a` at key `t` folds every
further slice at `t` into `a`, in encounter order. -/
theorem mergeAux_findSlice_some :
    ∀ (arr acc : List (Int × TimeSlice)) (t : Int) (a : TimeSlice),
      findSlice t acc = some a →
      findSlice t (mergeAux arr acc)
        = some ((slicesAt t arr).foldl combineFirst a) := by
  intro arr
  induction arr with
  | nil =>
    intro acc t a h
    rw [mergeAux_nil, h]
    rfl
  | cons p rest ih =>
    intro acc t a h
    rw [mergeAux_cons, slicesAt_cons]
    by_cases hp : p.1 = t
    · have h2 : findSlice t (upsertSlice p.1 p.2 acc)
          = some (combineFirst a p.2) := by
        subst hp
        rw [upsertSlice_findSlice_same, h]
      rw [ih _ _ _ h2, if_pos hp, List.foldl_cons]
    · have h2 : findSlice t (upsertSlice p.1 p.2 acc) = findSlice t acc :=
        upsertSlice_findSlice_other p.1 t p.2 (fun he => hp he.symm) acc
      rw [ih _ _ _ (h2.trans h), if_neg hp]

/-- Merging starting from a dict without key `t` stores at `t` the fold of
the slices carrying `t`, first one as seed, in encounter order. -/
theorem mergeAux_findSlice_none :
    ∀ (arr acc : List (Int × TimeSlice)) (t : Int),
      findSlice t acc = none →
      findSlice t (mergeAux arr acc) =
        (match slicesAt t arr with
         | [] => none
         | s :: ss => some (ss.foldl combineFirst s)) := by
  intro arr
  induction arr with
  | nil =>
    intro acc t h
    rw [mergeAux_nil, h]
    rfl
  | cons p rest ih =>
    intro acc t h
    rw [mergeAux_cons, slicesAt_cons]
    by_cases hp : p.1 = t
    · have h2 : findSlice t (upsertSlice p.1 p.2 acc) = some p.2 := by
        subst hp
        rw [upsertSlice_findSlice_same, h]
      rw [mergeAux_findSlice_some _ _ _ _ h2, if_pos hp]
    · have h2 : findSlice t (upsertSlice p.1 p.2 acc) = findSlice t acc :=
        upsertSlice_findSlice_other p.1 t p.2 (fun he => hp he.symm) acc
      rw [ih _ _ (h2.trans h), if_neg hp]

/-- First-occurrence de-duplication yields a duplicate-free list. -/
theorem firstDedupAux_nodup :
    ∀ (l acc : List Int), acc.Nodup → (firstDedupAux l acc).Nodup := by
  intro l
  induction l with
  | nil => intro acc h; exact h
  | cons t rest ih =>
    intro acc h
    rw [firstDedupAux_cons]
    by_cases hm : acc.contains t = true
    · rw [if_pos hm]
      exact ih acc h
    · rw [if_neg hm]
      refine ih (acc ++ [t]) ?_
      have ht : t ∉ acc := fun hmem => hm (List.elem_iff.mpr hmem)
      simp [List.nodup_append, h, ht]

/-- First-occurrence de-duplication preserves membership. -/
theorem mem_firstDedupAux :
    ∀ (l acc : List Int) (u : Int), u ∈ firstDedupAux l acc ↔ u ∈ acc ∨ u ∈ l := by
  intro l
  induction l with
  | nil => intro acc u; simp [firstDedupAux_nil]
  | cons t rest ih =>
    intro acc u
    rw [firstDedupAux_cons]
    by_cases hm : acc.contains t = true
    · rw [if_pos hm, ih]
      constructor
      · rintro (h | h)
        · exact Or.inl h
        · exact Or.inr (List.mem_cons_of_mem _ h)
      · rintro (h | h)
        · exact Or.inl h
        · rcases List.mem_cons.mp h with h | h
          · exact Or.inl (h ▸ List.elem_iff.mp hm)
          · exact Or.inr h
    · rw [if_neg hm, ih]
      simp only [List.mem_append, List.mem_singleton, List.mem_cons]
      tauto

end Terrakit

namespace Terrakit

/-- Folding slices with `combine_first` acts per pixel as folding the
pixels with prefer-first. -/
theorem foldl_combineFirst_getD (L j : Nat) (hj : j < L) :
    ∀ (ss : List TimeSlice) (a : TimeSlice), a.length = L →
      (∀ s ∈ ss, s.length = L) →
      (ss.foldl combineFirst a).getD j none
        = (ss.map (fun s => s.getD j none)).foldl pixOr (a.getD j none) := by
  intro ss
  induction ss with
  | nil => intro a _ _; rfl
  | cons s rest ih =>
    intro a ha hs
    have hsl : s.length = L := hs s (List.mem_cons_self s rest)
    have hcomb : (combineFirst a s).length = L := by
      rw [combineFirst_length, ha, hsl, Nat.min_self]
    rw [List.foldl_cons, List.map_cons, List.foldl_cons,
      ih (combineFirst a s) hcomb (fun x hx => hs x (List.mem_cons_of_mem s hx)),
      combineFirst_getD a s j (ha ▸ hj) (hsl ▸ hj)]

/-- C4: on an array with duplicated timestamps,
`remove_repeated_time_coords` keeps exactly one slice per distinct
timestamp (its time index becomes the first-occurrence de-duplication of
the original index — duplicate-free, with no timestamp dropped), and each
pixel of a merged slice is the first non-NaN value among the slices that
carried that timestamp, in encounter order. -/
theorem remove_repeated_time_coords_merge (arr : List (Int × TimeSlice))
    (L : Nat) (hL : ∀ p ∈ arr, p.2.length = L)
    (hdup : ¬ (arr.map Prod.fst).Nodup) :
    ((removeRepeatedTimeCoords arr).map Prod.fst)
        = firstDedup (arr.map Prod.fst)
    ∧ ((removeRepeatedTimeCoords arr).map Prod.fst).Nodup
    ∧ (∀ u : Int, u ∈ (removeRepeatedTimeCoords arr).map Prod.fst
        ↔ u ∈ arr.map Prod.fst)
    ∧ (∀ t ∈ arr.map Prod.fst, ∀ j, j < L →
        ∃ merged, findSlice t (removeRepeatedTimeCoords arr) = some merged
          ∧ merged.getD j none
            = firstSome ((slicesAt t arr).map (fun s => s.getD j none))) := by
  have hmerge : removeRepeatedTimeCoords arr = mergeByTime arr := by
    simp [removeRepeatedTimeCoords, hdup]
  have hkeys : (removeRepeatedTimeCoords arr).map Prod.fst
      = firstDedup (arr.map Prod.fst) := by
    rw [hmerge]
    exact mergeAux_keys arr []
  refine ⟨hkeys, ?_, ?_, ?_⟩
  · rw [hkeys]
    exact firstDedupAux_nodup _ [] List.nodup_nil
  · intro u
    rw [hkeys]
    unfold firstDedup
    rw [mem_firstDedupAux]
    simp
  · intro t ht j hj
    have h0 : findSlice t ([] : List (Int × TimeSlice)) = none := rfl
    have hall := mergeAux_findSlice_none arr [] t h0
    obtain ⟨p, hp, hpt⟩ := List.mem_map.mp ht
    have hps : p.2 ∈ slicesAt t arr := by
      unfold slicesAt
      exact List.mem_map_of_mem Prod.snd
        (List.mem_filter.mpr ⟨hp, by simp [hpt]⟩)
    obtain ⟨s, ss, hss⟩ : ∃ s ss, slicesAt t arr = s :: ss := by
      cases hcase : slicesAt t arr with
      | nil => rw [hcase] at hps; exact absurd hps (List.not_mem_nil p.2)
      | cons s ss => exact ⟨s, ss, rfl⟩
    rw [hss] at hall
    have hlen : ∀ x ∈ slicesAt t arr, x.length = L := by
      intro x hx
      unfold slicesAt at hx
      obtain ⟨q, hq, rfl⟩ := List.mem_map.mp hx
      exact hL q (List.mem_of_mem_filter hq)
    refine ⟨ss.foldl combineFirst s, by rw [hmerge]; exact hall, ?_⟩
    rw [foldl_combineFirst_getD L j hj ss s
      (hlen s (hss ▸ List.mem_cons_self s ss))
      (fun x hx => hlen x (hss ▸ List.mem_cons_of_mem s hx))]
    rw [hss, List.map_cons]
    unfold firstSome
    rw [List.foldl_cons]
    rfl

/-- Witness for C4: two slices at the same timestamp, the first with a
NaN pixel where the second holds 5, merge into one slice whose pixel is 5
and no timestamp is dropped. -/
theorem remove_repeated_time_coords_merge_witness :
    ((∀ p ∈ [((0 : Int), ([none, some 1] : TimeSlice)), (0, [some 5, some 2])],
        p.2.length = 2)
      ∧ ¬ (([((0 : Int), ([none, some 1] : TimeSlice)),
            (0, [some 5, some 2])]).map Prod.fst).Nodup)
    ∧ (((removeRepeatedTimeCoords
          [((0 : Int), ([none, some 1] : TimeSlice)),
           (0, [some 5, some 2])]).map Prod.fst)
          = firstDedup (([((0 : Int), ([none, some 1] : TimeSlice)),
              (0, [some 5, some 2])]).map Prod.fst)
      ∧ ((removeRepeatedTimeCoords
          [((0 : Int), ([none, some 1] : TimeSlice)),
           (0, [some 5, some 2])]).map Prod.fst).Nodup
      ∧ (∀ u : Int, u ∈ (removeRepeatedTimeCoords
            [((0 : Int), ([none, some 1] : TimeSlice)),
             (0, [some 5, some 2])]).map Prod.fst
          ↔ u ∈ ([((0 : Int), ([none, some 1] : TimeSlice)),
              (0, [some 5, some 2])]).map Prod.fst)
      ∧ (∀ t ∈ ([((0 : Int), ([none, some 1] : TimeSlice)),
            (0, [some 5, some 2])]).map Prod.fst, ∀ j, j < 2 →
          ∃ merged, findSlice t (removeRepeatedTimeCoords
              [((0 : Int), ([none, some 1] : TimeSlice)),
               (0, [some 5, some 2])]) = some merged
            ∧ merged.getD j none
              = firstSome ((slicesAt t
                  [((0 : Int), ([none, some 1] : TimeSlice)),
                   (0, [some 5, some 2])]).map (fun s => s.getD j none)))) :=
  ⟨⟨by decide, by decide⟩,
   remove_repeated_time_coords_merge
     [((0 : Int), ([none, some 1] : TimeSlice)), (0, [some 5, some 2])] 2
     (by decide) (by decide)⟩

end Terrakit

namespace Terrakit

/-! ## Theorems: band coordinate of get_data -/

/-- The band rewrite never changes the number of requested bands. -/
theorem checkBandsGo_length (specs : List BandSpec) :
    ∀ bands : List String,
      (checkBandsGo specs bands).length = bands.length := by
  intro bands
  induction bands with
  | nil => rfl
  | cons b rest ih =>
    show (checkBandsGo specs (b :: rest)).length = rest.length + 1
    rw [checkBandsGo]
    by_cases hc : (specs.map (fun X => X.band_name)).contains b = true
    · rw [if_pos hc]
      simp [ih]
    · rw [if_neg hc]
      cases hfind : specs.find? (fun X => X.alt_names.contains b) with
      | some X => simp [ih]
      | none => simp

/-- Each position of the rewritten band list holds either the requested
name or the canonical name of a band spec that lists the requested name
among its aliases. -/
theorem checkBandsGo_entries (specs : List BandSpec) :
    ∀ (bands : List String) (i : Nat), i < bands.length →
      (checkBandsGo specs bands).getD i "" = bands.getD i ""
      ∨ ∃ X ∈ specs, X.alt_names.contains (bands.getD i "") = true
          ∧ (checkBandsGo specs bands).getD i "" = X.band_name := by
  intro bands
  induction bands with
  | nil => intro i hi; simp at hi
  | cons b rest ih =>
    intro i hi
    rw [checkBandsGo]
    by_cases hc : (specs.map (fun X => X.band_name)).contains b = true
    · rw [if_pos hc]
      cases i with
      | zero => exact Or.inl rfl
      | succ i =>
        have hi' : i < rest.length := by simpa using hi
        rcases ih i hi' with h | ⟨X, hX, ha, he⟩
        · exact Or.inl (by simpa using h)
        · exact Or.inr ⟨X, hX, by simpa using ha, by simpa using he⟩
    · rw [if_neg hc]
      cases hfind : specs.find? (fun X => X.alt_names.contains b) with
      | some X =>
        cases i with
        | zero =>
          refine Or.inr ⟨X, List.mem_of_find?_eq_some hfind, ?_, rfl⟩
          simpa using List.find?_some hfind
        | succ i =>
          have hi' : i < rest.length := by simpa using hi
          rcases ih i hi' with h | ⟨Y, hY, ha, he⟩
          · exact Or.inl (by simpa using h)
          · exact Or.inr ⟨Y, hY, by simpa using ha, by simpa using he⟩
      | none => exact Or.inl rfl

/-- C1: whenever `Sentinel_AWS.get_data` succeeds, the returned cube's
`band` coordinate is exactly the caller's requested `bands` list as
rewritten in place by `check_bands`: same length, and position by
position either the requested name itself or the canonical band name
substituted for a recognized alias; the cube's time coordinate is the
resolved date list. -/
theorem get_data_band_coordinate (collections : List CollectionDetails)
    (collectionName : String) (bands : List String)
    (uniqueDates : List String) (cube : Cube)
    (hok : sentinelAwsGetData collections collectionName bands uniqueDates
      = .ok cube) :
    ∃ cd, collections.find?
        (fun c => c.collection_name == collectionName) = some cd
      ∧ cube.band = checkBandsGo cd.bands bands
      ∧ cube.band.length = bands.length
      ∧ (∀ i, i < bands.length →
          cube.band.getD i "" = bands.getD i ""
          ∨ ∃ X ∈ cd.bands, X.alt_names.contains (bands.getD i "") = true
              ∧ cube.band.getD i "" = X.band_name)
      ∧ cube.times = uniqueDates := by
  unfold sentinelAwsGetData at hok
  by_cases hc : (collections.map (fun cd => cd.collection_name)).contains
      collectionName = true
  · rw [if_neg (fun h => h hc)] at hok
    unfold checkBands at hok
    cases hfind : collections.find?
        (fun cd => cd.collection_name == collectionName) with
    | none =>
      rw [hfind] at hok
      exact absurd hok (by simp)
    | some cd =>
      rw [hfind] at hok
      cases uniqueDates with
      | nil => exact absurd hok (by simp)
      | cons d ds =>
        simp only [List.map_cons] at hok
        have hcube : cube =
            { times := d :: ds, band := checkBandsGo cd.bands bands } := by
          have h2 := Except.ok.inj hok
          rw [← h2]
          simp [Function.comp_def]
        refine ⟨cd, rfl, ?_, ?_, ?_, ?_⟩
        · rw [hcube]
        · rw [hcube]
          exact checkBandsGo_length cd.bands bands
        · intro i hi
          rw [hcube]
          exact checkBandsGo_entries cd.bands bands i hi
        · rw [hcube]
  · rw [if_pos hc] at hok
    exact absurd hok (by simp)

/-- Witness for C1: a collection with canonical bands red/green where
"B04" is an alias of red; requesting ["B04", "green"] yields a cube
labelled ["red", "green"] in the requested order. -/
theorem get_data_band_coordinate_witness :
    sentinelAwsGetData exampleCollections
        "sentinel-2-l2a" ["B04", "green"] ["2024-01-01"]
      = .ok ⟨["2024-01-01"], ["red", "green"]⟩
    ∧ (∃ cd, exampleCollections.find?
          (fun c => c.collection_name == "sentinel-2-l2a") = some cd
        ∧ (Cube.mk ["2024-01-01"] ["red", "green"]).band
            = checkBandsGo cd.bands ["B04", "green"]
        ∧ (Cube.mk ["2024-01-01"] ["red", "green"]).band.length
            = (["B04", "green"] : List String).length
        ∧ (∀ i, i < (["B04", "green"] : List String).length →
            (Cube.mk ["2024-01-01"] ["red", "green"]).band.getD i ""
                = (["B04", "green"] : List String).getD i ""
            ∨ ∃ X ∈ cd.bands,
                X.alt_names.contains
                    ((["B04", "green"] : List String).getD i "") = true
                ∧ (Cube.mk ["2024-01-01"] ["red", "green"]).band.getD i ""
                    = X.band_name)
        ∧ (Cube.mk ["2024-01-01"] ["red", "green"]).times = ["2024-01-01"]) :=
  ⟨rfl,
   get_data_band_coordinate exampleCollections
     "sentinel-2-l2a" ["B04", "green"] ["2024-01-01"]
     ⟨["2024-01-01"], ["red", "green"]⟩ rfl⟩

end Terrakit
